import Mathlib

/-!
# Verification of the HatenaToyBox coordination core

Shallow embedding of the in-process coordination layer of the repository:
the event bus (`EventController`), the service dispatcher
(`ServiceController`), the worker lifecycle manager (`ProcessManager`),
the periodic-routine manager (`RoutineManager`), the capacity-adjustable
queue (`ResizableQueue`) and the publish-only capability handle
(`EventPublisher`).  Each definition is translated from the corresponding
Python source file; theorems settle the specification claims.
-/

set_option autoImplicit false

namespace HatenaToyBox

/-! ## ResizableQueue (src/utils/resizable_queue.py)

`ResizableQueue` subclasses `asyncio.Queue`; the underlying buffer
`self._queue` is a deque where `put` appends at the right (newest) end and
`get` pops from the left (oldest) end, so we model it as a `List` whose
head is the oldest item.  `self._queue.pop()` removes the rightmost
(newest) element, i.e. `List.dropLast`.  `qsize()` is the length and
`_maxsize` the stored capacity (an `Int`, since a capacity `≤ 0` means
unbounded). -/

structure ResizableQueue where
  items : List Nat
  maxsize : Int
  deriving DecidableEq, Repr

namespace ResizableQueue

/-- The empty queue with a given capacity (`asyncio.Queue(maxsize)`). -/
def empty (maxsize : Int) : ResizableQueue := ⟨[], maxsize⟩

/-- `put_nowait(item)`: append at the newest end. -/
def put (q : ResizableQueue) (x : Nat) : ResizableQueue :=
  { q with items := q.items ++ [x] }

/-- `get()`: remove and return the oldest item (head of the list); `none`
models the suspension when the queue is empty. -/
def get (q : ResizableQueue) : Option (Nat × ResizableQueue) :=
  match q.items with
  | [] => none
  | x :: rest => some (x, { q with items := rest })

/-- `qsize()`. -/
def length (q : ResizableQueue) : Nat := q.items.length

/-- The `while self.qsize() > maxsize: self._queue.pop()` loop of
`change_maxsize`: repeatedly discard the newest element until the length
is at most `m`. -/
def popNewestUntil (items : List Nat) (m : Nat) : List Nat :=
  if m < items.length then popNewestUntil items.dropLast m else items
  termination_by items.length
  decreasing_by
    have h : m < items.length := by assumption
    simp only [List.length_dropLast]
    omega

/-- `change_maxsize(maxsize)`: if the new capacity is positive, drop newest
items while the length exceeds it; in every case store the new capacity. -/
def changeMaxsize (q : ResizableQueue) (m : Int) : ResizableQueue :=
  if 0 < m then
    { items := popNewestUntil q.items m.toNat, maxsize := m }
  else
    { q with maxsize := m }

/-- Drain up to `n` items from the queue by successive `get()` calls,
collecting the returned values in order. -/
def drain : Nat → ResizableQueue → List Nat
  | 0, _ => []
  | n + 1, q =>
    match q.get with
    | none => []
    | some (x, q2) => x :: drain n q2

end ResizableQueue

/-! ## ProcessManager (src/utils/process_manager.py)

A managed worker (`Process` protocol) has `run()` and `close()`; either may
raise.  We model a worker by an identifier, whether its `close()` raises
(and with which exception code), and whether awaiting its background
`run()` task raises.  An `asyncio.Task` is modelled by its identifier and
the exception (if any) observed when it is awaited.

The manager state carries the `_running_service` / `_running_task` pair
plus two ghost histories: the worker ids on which `close()` has been
called, and the task ids that have been awaited during teardown.  An
operation returns the new state together with the exception (if any) that
propagates to its caller. -/

structure Worker where
  id : Nat
  closeExc : Option Nat
  runExc : Option Nat
  deriving DecidableEq, Repr

structure WTask where
  id : Nat
  awaitExc : Option Nat
  deriving DecidableEq, Repr

structure PMState where
  runningService : Option Worker
  runningTask : Option WTask
  closeLog : List Nat
  awaitLog : List Nat
  deriving DecidableEq, Repr

namespace ProcessManager

/-- `ProcessManager.__init__`: both fields start as `None`. -/
def initState : PMState :=
  { runningService := none, runningTask := none, closeLog := [], awaitLog := [] }

/-- `get()`: return `_running_service` under the lock (no mutation). -/
def get (s : PMState) : Option Worker := s.runningService

/-- `_swap_run_task(running_service, running_task)`: under the lock,
exchange the stored pair with the arguments; after releasing the lock, if
both old components exist, call the old worker's `close()` (whose
exception propagates) and then await the old task inside
`contextlib.suppress(Exception)` (whose exception is swallowed). -/
def swapRunTask (s : PMState) (w : Option Worker) (t : Option WTask) :
    PMState × Option Nat :=
  let s1 : PMState := { s with runningService := w, runningTask := t }
  match s.runningService, s.runningTask with
  | some oldW, some oldT =>
    let s2 := { s1 with closeLog := s1.closeLog ++ [oldW.id] }
    match oldW.closeExc with
    | some e => (s2, some e)
    | none => ({ s2 with awaitLog := s2.awaitLog ++ [oldT.id] }, none)
  | _, _ => (s1, none)

/-- `update(service)`: `None` tears down with no replacement; otherwise
start `service.run()` as a fresh task (identified by `taskId`, raising on
await exactly when the worker's `run` raises) and swap it in. -/
def update (s : PMState) (w : Option Worker) (taskId : Nat) :
    PMState × Option Nat :=
  match w with
  | none => swapRunTask s none none
  | some sv => swapRunTask s (some sv) (some { id := taskId, awaitExc := sv.runExc })

/-- `store(service, task)`: adopt a worker together with its
already-running task. -/
def store (s : PMState) (w : Worker) (t : WTask) : PMState × Option Nat :=
  swapRunTask s (some w) (some t)

/-- The values `get()` can observe while a swap is in flight: the state
before the lock is taken, the state right after the pointer swap (the lock
is released before teardown starts), the state while the old worker's
teardown runs, and the final state.  The only suspension points of
`_swap_run_task` are the lock acquisition, `close()` and the awaited task,
all of which fall on these boundaries. -/
def swapTrace (s : PMState) (w : Option Worker) (t : Option WTask) :
    List PMState :=
  let s1 : PMState := { s with runningService := w, runningTask := t }
  [s, s1, (swapRunTask s w t).1]

/-- The operations of the manager, for reachability statements. -/
inductive PMOp where
  | get
  | update (w : Option Worker) (taskId : Nat)
  | store (w : Worker) (t : WTask)
  deriving DecidableEq, Repr

/-- Apply one operation to the state (the caller-visible exception is
dropped: it does not affect the stored state). -/
def applyOp (s : PMState) : PMOp → PMState
  | .get => s
  | .update w taskId => (update s w taskId).1
  | .store w t => (store s w t).1

/-- The state after a sequence of operations from the initial state. -/
def runOps (ops : List PMOp) : PMState := ops.foldl applyOp initState

/-- The invariant of claim C10: the worker and the task are either both
absent or both present. -/
def pairConsistent (s : PMState) : Prop :=
  s.runningService.isSome = s.runningTask.isSome

instance (s : PMState) : Decidable (pairConsistent s) := by
  unfold pairConsistent; infer_instance

end ProcessManager

/-! ## EventController (src/common/core/controller/event_controller.py)

Python dispatches on `type(event)`; we model an event as a tag (its
concrete type) plus a payload.  The handler registry
`self._handlers : dict[type[BaseEvent], list[EventHandler]]` is an
association list from tag to the insertion-ordered list of handler
identifiers; dict keys are unique, which `addHandler` maintains by
mutating the existing entry (`setdefault(...).append`).  A handler's
behaviour is a function from handler id and event to `none` (returns
normally) or `some e` (raises exception code `e`). -/

structure Event where
  tag : Nat
  payload : Nat
  deriving DecidableEq, Repr

abbrev EventRegistry := List (Nat × List Nat)

abbrev HandlerBehavior := Nat → Event → Option Nat

namespace EventController

/-- Look up the handler list for a tag (`self._handlers` dict lookup):
`none` models `tag not in self._handlers`. -/
def lookupTag (reg : EventRegistry) (t : Nat) : Option (List Nat) :=
  (reg.find? (fun p => p.1 == t)).map (fun p => p.2)

/-- `add_handler(event_type, handler)`:
`self._handlers.setdefault(event_type, []).append(handler)`. -/
def addHandler (reg : EventRegistry) (t : Nat) (h : Nat) : EventRegistry :=
  if reg.any (fun p => p.1 == t) then
    reg.map (fun p => if p.1 == t then (p.1, p.2 ++ [h]) else p)
  else
    reg ++ [(t, [h])]

/-- `publish(event)` / `publish_nowait(event)`: enqueue at the newest end
of the unbounded internal queue (so neither ever blocks). -/
def publish (q : List Event) (e : Event) : List Event := q ++ [e]

def publishNowait (q : List Event) (e : Event) : List Event := q ++ [e]

/-- The body of `_main` after an event has been dequeued: if the event's
tag is not in the registry, return with no invocations and no error;
otherwise `asyncio.gather` invokes every registered handler on the event
(all are started; the first raised exception propagates out of the
gather). -/
def dispatchEvent (reg : EventRegistry) (hb : HandlerBehavior) (e : Event) :
    List (Nat × Event) × Option Nat :=
  match lookupTag reg e.tag with
  | none => ([], none)
  | some hs => (hs.map (fun h => (h, e)), (hs.filterMap (fun h => hb h e)).head?)

/-- The run loop, driven until the queue is drained: `_main` is re-invoked
for each queued event in FIFO order; a handler exception aborts the loop.
Returns the full invocation trace and the aborting exception, if any. -/
def runLoop (reg : EventRegistry) (hb : HandlerBehavior) :
    List Event → List (Nat × Event) × Option Nat
  | [] => ([], none)
  | e :: rest =>
    let step := dispatchEvent reg hb e
    match step.2 with
    | some exc => (step.1, some exc)
    | none =>
      let tail := runLoop reg hb rest
      (step.1 ++ tail.1, tail.2)

/-- The events a given handler is invoked on, in invocation order. -/
def invocationsOf (h : Nat) (trace : List (Nat × Event)) : List Event :=
  (trace.filter (fun p => p.1 == h)).map (fun p => p.2)

/-- The queue contents after publishing a sequence of events in order. -/
def publishAll (q : List Event) (es : List Event) : List Event :=
  es.foldl publish q

end EventController

/-! ## ServiceController (src/common/core/controller/service_controller.py)

A service request is modelled as a tag (its concrete type) plus a payload.
`self._handlers : dict[type[BaseService], ServiceHandler]` maps a tag to a
single handler id; a handler's behaviour maps its id and the request
payload to `Except` (exception code or result). -/

structure ServiceReq where
  tag : Nat
  payload : Nat
  deriving DecidableEq, Repr

abbrev ServiceRegistry := List (Nat × Nat)

abbrev ServiceBehavior := Nat → Nat → Except Nat Nat

/-- The exceptions of src/common/core/controller/exceptions.py, plus a
handler's own exception propagating through `call` unchanged. -/
inductive CallErr where
  | serviceHandlerExists (tag : Nat)
  | serviceNotHandled (tag : Nat)
  | fromHandler (e : Nat)
  deriving DecidableEq, Repr

namespace ServiceController

def lookupService (reg : ServiceRegistry) (t : Nat) : Option Nat :=
  (reg.find? (fun p => p.1 == t)).map (fun p => p.2)

/-- `add_handler(service_type, handler)`: raise
`ServiceHandlerExistsError` when the tag is already registered — the raise
happens before any mutation, so the registry is returned unchanged
alongside the error; otherwise store the handler. -/
def addHandler (reg : ServiceRegistry) (t : Nat) (h : Nat) :
    ServiceRegistry × Option CallErr :=
  if reg.any (fun p => p.1 == t) then
    (reg, some (.serviceHandlerExists t))
  else
    (reg ++ [(t, h)], none)

/-- `call(service)`: raise `ServiceNotHandledError` when no handler is
registered for the request's tag; otherwise await the handler on
`service.payload`, propagating its exception unchanged, and return its
result.  The first component is the list of handler invocations
(handler id, payload) performed by the call. -/
def call (reg : ServiceRegistry) (sb : ServiceBehavior) (req : ServiceReq) :
    List (Nat × Nat) × Except CallErr Nat :=
  match lookupService reg req.tag with
  | none => ([], .error (.serviceNotHandled req.tag))
  | some h =>
    ([(h, req.payload)],
      match sb h req.payload with
      | .error e => .error (.fromHandler e)
      | .ok r => .ok r)

end ServiceController

/-! ## EventPublisher (src/common/core/event_publisher.py)

The publish-only capability handle.  A value handed to it is either an
actual event (`isinstance(event, BaseEvent)` holds) or any other value;
non-events are silently dropped, events are delegated to the controller's
queue unchanged.  Both operations return `Except`, which makes the absence
of any raising path explicit. -/

inductive HubValue where
  | ev (e : Event)
  | nonEvent (data : Nat)
  deriving DecidableEq, Repr

namespace EventPublisher

/-- `publish(event)`: `if not isinstance(event, BaseEvent): return`, else
`await self._controller.publish(event)`. -/
def publish (q : List Event) (v : HubValue) : Except Nat (List Event) :=
  match v with
  | .ev e => .ok (EventController.publish q e)
  | .nonEvent _ => .ok q

/-- `publish_nowait(event)`: same filter, delegating to
`self._controller.publish_nowait(event)`. -/
def publishNowait (q : List Event) (v : HubValue) : Except Nat (List Event) :=
  match v with
  | .ev e => .ok (EventController.publishNowait q e)
  | .nonEvent _ => .ok q

end EventPublisher

/-! ## RoutineManager (src/utils/routines/routine_manager.py)

`self._routines` is a list of `twitchio` routine objects.  We model each
routine by an identifier and its status; `cancel()` is recorded in a ghost
history since cancelled routines are dropped from the registry by
`clear()`. -/

inductive RoutineStatus where
  | registered
  | running
  deriving DecidableEq, Repr

structure Routine where
  id : Nat
  status : RoutineStatus
  deriving DecidableEq, Repr

structure RoutineManager where
  routines : List Routine
  cancelLog : List Nat
  deriving DecidableEq, Repr

namespace RoutineManager

def initState : RoutineManager := { routines := [], cancelLog := [] }

/-- `add(coro, interval)`: append a new (not yet started) routine. -/
def add (m : RoutineManager) (rid : Nat) : RoutineManager :=
  { m with routines := m.routines ++ [{ id := rid, status := .registered }] }

/-- `start()`: start every registered routine. -/
def start (m : RoutineManager) : RoutineManager :=
  { m with routines := m.routines.map (fun r => { r with status := .running }) }

/-- `restart()`: restart every routine still in the registry (a restarted
routine is running). -/
def restart (m : RoutineManager) : RoutineManager :=
  { m with routines := m.routines.map (fun r => { r with status := .running }) }

/-- `clear()`: cancel every routine in the registry, then
`self._routines.clear()`. -/
def clear (m : RoutineManager) : RoutineManager :=
  { routines := [],
    cancelLog := m.cancelLog ++ m.routines.map (fun r => r.id) }

end RoutineManager

/-! ## Helper lemmas -/

theorem popNewestUntil_of_le {items : List Nat} {m : Nat}
    (h : items.length ≤ m) : ResizableQueue.popNewestUntil items m = items := by
  unfold ResizableQueue.popNewestUntil
  simp [Nat.not_lt.mpr h]

theorem popNewestUntil_eq_take (items : List Nat) (m : Nat) :
    ResizableQueue.popNewestUntil items m =
      if m < items.length then items.take m else items := by
  by_cases h : m < items.length
  · simp only [h, if_true]
    induction items using List.reverseRecOn generalizing m with
    | nil => simp at h
    | append_singleton xs x ih =>
      unfold ResizableQueue.popNewestUntil
      simp only [h, if_true, List.dropLast_concat]
      by_cases h2 : m < xs.length
      · rw [ih m h2, List.take_append_of_le_length (Nat.le_of_lt h2)]
      · have hlen : xs.length = m := by
          simpa using Nat.le_antisymm (Nat.not_lt.mp h2)
            (by simpa [List.length_append] using Nat.lt_succ_iff.mp (by simpa [List.length_append] using h))
        rw [popNewestUntil_of_le (Nat.le_of_eq hlen)]
        rw [List.take_append_of_le_length (Nat.le_of_eq hlen.symm), ← hlen, List.take_length]
  · simp only [h, if_false]
    exact popNewestUntil_of_le (Nat.not_lt.mp h)

theorem drain_eq_take (n : Nat) (q : ResizableQueue) :
    ResizableQueue.drain n q = q.items.take n := by
  induction n generalizing q with
  | zero => rfl
  | succ k ih =>
    obtain ⟨items, ms⟩ := q
    cases items with
    | nil => rfl
    | cons x rest =>
      simp only [ResizableQueue.drain, ResizableQueue.get, List.take_succ_cons]
      exact congrArg (x :: ·) (ih ⟨rest, ms⟩)

/-! ## Claim C4 — ResizableQueue.change_maxsize -/

/-- The queue obtained by enqueuing `0,…,9` in order into a fresh
unbounded queue. -/
def queue09 : ResizableQueue :=
  (List.range 10).foldl ResizableQueue.put (ResizableQueue.empty 0)

/-- C4: `changeMaxsize n` with `n > 0` and length exceeding `n` discards
newest items until the length is `n`, keeping the oldest `n` items in
FIFO order; with `n ≤ 0`, or when the length does not exceed `n`, the
items are untouched; the stored capacity always becomes `n`.  On the
concrete queue `0..9`, `changeMaxsize 5` leaves exactly `[0,1,2,3,4]`,
whose five successive `get()` calls yield `0,1,2,3,4` in order. -/
theorem c4_change_maxsize (q : ResizableQueue) (m : Int) :
    ((0 < m → m.toNat < q.items.length →
        (q.changeMaxsize m).items = q.items.take m.toNat ∧
        (q.changeMaxsize m).length = m.toNat) ∧
      (m ≤ 0 ∨ q.items.length ≤ m.toNat → (q.changeMaxsize m).items = q.items) ∧
      (q.changeMaxsize m).maxsize = m) ∧
    ((queue09.changeMaxsize 5).items = [0, 1, 2, 3, 4] ∧
      (queue09.changeMaxsize 5).length = 5 ∧
      ResizableQueue.drain 5 (queue09.changeMaxsize 5) = [0, 1, 2, 3, 4]) := by
  have hitems : ∀ r : ResizableQueue, ∀ n : Int, (r.changeMaxsize n).items =
      if 0 < n then ResizableQueue.popNewestUntil r.items n.toNat else r.items := by
    intro r n
    simp only [ResizableQueue.changeMaxsize]
    split <;> rfl
  have hq09 : (queue09.changeMaxsize 5).items = [0, 1, 2, 3, 4] := by
    rw [show queue09 = ⟨[0, 1, 2, 3, 4, 5, 6, 7, 8, 9], 0⟩ from rfl, hitems]
    norm_num [popNewestUntil_eq_take]
    rfl
  refine ⟨⟨?_, ?_, ?_⟩, hq09, ?_, ?_⟩
  · intro hm hlen
    have h5 : (q.changeMaxsize m).items = q.items.take m.toNat := by
      rw [hitems, if_pos hm, popNewestUntil_eq_take, if_pos hlen]
    refine ⟨h5, ?_⟩
    rw [ResizableQueue.length, h5, List.length_take]
    omega
  · rintro (hm | hlen)
    · rw [hitems, if_neg (by omega)]
    · rw [hitems]
      split
      · exact popNewestUntil_of_le hlen
      · rfl
  · simp only [ResizableQueue.changeMaxsize]
    split <;> rfl
  · rw [ResizableQueue.length, hq09]; rfl
  · rw [drain_eq_take, hq09]; rfl

/-- Witness for C4 at a concrete state: capacity 3 on a five-element
queue truncates to the oldest three; capacity `-1` leaves the items
alone. -/
theorem c4_witness :
    ((ResizableQueue.mk [10, 11, 12, 13, 14] 0).changeMaxsize 3).items = [10, 11, 12] ∧
    ((ResizableQueue.mk [10, 11, 12, 13, 14] 0).changeMaxsize (-1)).items
      = [10, 11, 12, 13, 14] := by
  constructor
  · have h := (c4_change_maxsize ⟨[10, 11, 12, 13, 14], 0⟩ 3).1.1 (by decide) (by decide)
    simpa using h.1
  · exact (c4_change_maxsize ⟨[10, 11, 12, 13, 14], 0⟩ (-1)).1.2.1 (Or.inl (by decide))

/-! ## Claim C7 — PeriodicScheduler clear then restart -/

/-- C7: `clear()` empties the registry, and a subsequent `restart()` with
no intervening `add()` leaves zero active entries. -/
theorem c7_clear_then_restart (m : RoutineManager) :
    (m.clear).routines = [] ∧ ((m.clear).restart).routines = [] := by
  simp [RoutineManager.clear, RoutineManager.restart]

/-! ## Claim C9 — EventPublisher filters non-events -/

/-- C9: `publish`/`publish_nowait` on a non-event value return without
raising and enqueue nothing; on an event value they delegate to the
controller's enqueue unchanged. -/
theorem c9_publisher_filter (q : List Event) (d : Nat) (e : Event) :
    EventPublisher.publish q (.nonEvent d) = .ok q ∧
    EventPublisher.publishNowait q (.nonEvent d) = .ok q ∧
    EventPublisher.publish q (.ev e) = .ok (EventController.publish q e) ∧
    EventPublisher.publishNowait q (.ev e) = .ok (EventController.publishNowait q e) :=
  ⟨rfl, rfl, rfl, rfl⟩

/-! ## ProcessManager lemmas and claims C10, C2, C3 -/

theorem swapRunTask_fields (s : PMState) (w : Option Worker) (t : Option WTask) :
    (ProcessManager.swapRunTask s w t).1.runningService = w ∧
    (ProcessManager.swapRunTask s w t).1.runningTask = t := by
  obtain ⟨rs, rt, cl, al⟩ := s
  rcases rs with _ | oldW
  · rcases rt with _ | oldT
    · exact ⟨rfl, rfl⟩
    · exact ⟨rfl, rfl⟩
  · rcases rt with _ | oldT
    · exact ⟨rfl, rfl⟩
    · rcases oldW with ⟨oid, ocl, orun⟩
      rcases ocl with _ | e
      · exact ⟨rfl, rfl⟩
      · exact ⟨rfl, rfl⟩

theorem update_fields (s : PMState) (w : Option Worker) (taskId : Nat) :
    (ProcessManager.update s w taskId).1.runningService = w := by
  rcases w with _ | sv
  · exact (swapRunTask_fields s none none).1
  · exact (swapRunTask_fields s (some sv) (some ⟨taskId, sv.runExc⟩)).1

/-- C10: from the initial state, every sequence of completed `get`,
`update` and `store` operations leaves the worker/task pair consistent:
`_running_service` and `_running_task` are either both `None` or both
set. -/
theorem c10_pair_consistent (ops : List ProcessManager.PMOp) :
    ProcessManager.pairConsistent (ProcessManager.runOps ops) := by
  have hstep : ∀ (s : PMState) (op : ProcessManager.PMOp),
      ProcessManager.pairConsistent s →
      ProcessManager.pairConsistent (ProcessManager.applyOp s op) := by
    intro s op hs
    cases op with
    | get => exact hs
    | update w taskId =>
      rcases w with _ | sv
      · have h := swapRunTask_fields s none none
        simp [ProcessManager.applyOp, ProcessManager.update,
          ProcessManager.pairConsistent, h.1, h.2]
      · have h := swapRunTask_fields s (some sv) (some ⟨taskId, sv.runExc⟩)
        simp [ProcessManager.applyOp, ProcessManager.update,
          ProcessManager.pairConsistent, h.1, h.2]
    | store w t =>
      have h := swapRunTask_fields s (some w) (some t)
      simp [ProcessManager.applyOp, ProcessManager.store,
        ProcessManager.pairConsistent, h.1, h.2]
  have hfold : ∀ (l : List ProcessManager.PMOp) (s : PMState),
      ProcessManager.pairConsistent s →
      ProcessManager.pairConsistent (l.foldl ProcessManager.applyOp s) := by
    intro l
    induction l with
    | nil => intro s hs; exact hs
    | cons op rest ih => intro s hs; exact ih _ (hstep s op hs)
  exact hfold ops ProcessManager.initState rfl

/-- C2: starting from a fresh manager, after `update(A)` then `update(B)`
the close history contains `A`'s id exactly once and `get()` returns `B`;
every state observable while the second update is in flight (before the
lock, right after the pointer swap, and during/after teardown) has a
non-null current worker.  Likewise, after `update(W)` then `update(None)`,
`W`'s `close()` has been called exactly once and `get()` returns `None`. -/
theorem c2_update_scenarios (A B W : Worker) (t1 t2 t3 : Nat) :
    (ProcessManager.get
        (ProcessManager.update
          (ProcessManager.update ProcessManager.initState (some A) t1).1
          (some B) t2).1 = some B ∧
      ((ProcessManager.update
          (ProcessManager.update ProcessManager.initState (some A) t1).1
          (some B) t2).1.closeLog.count A.id = 1) ∧
      (∀ u ∈ ProcessManager.swapTrace
          (ProcessManager.update ProcessManager.initState (some A) t1).1
          (some B) (some ⟨t2, B.runExc⟩),
        (ProcessManager.get u).isSome)) ∧
    (ProcessManager.get
        (ProcessManager.update
          (ProcessManager.update ProcessManager.initState (some W) t3).1
          none 0).1 = none ∧
      ((ProcessManager.update
          (ProcessManager.update ProcessManager.initState (some W) t3).1
          none 0).1.closeLog.count W.id = 1)) := by
  have hs1 : (ProcessManager.update ProcessManager.initState (some A) t1).1 =
      { runningService := some A, runningTask := some ⟨t1, A.runExc⟩,
        closeLog := [], awaitLog := [] } := rfl
  have hsW : (ProcessManager.update ProcessManager.initState (some W) t3).1 =
      { runningService := some W, runningTask := some ⟨t3, W.runExc⟩,
        closeLog := [], awaitLog := [] } := rfl
  refine ⟨⟨?_, ?_, ?_⟩, ?_, ?_⟩
  · rw [hs1]
    show (ProcessManager.swapRunTask _ (some B) (some ⟨t2, B.runExc⟩)).1.runningService = some B
    exact (swapRunTask_fields _ _ _).1
  · rw [hs1]
    show (ProcessManager.swapRunTask _ (some B) (some ⟨t2, B.runExc⟩)).1.closeLog.count A.id = 1
    simp only [ProcessManager.swapRunTask]
    rcases A.closeExc with _ | e <;> simp [List.count_cons, List.count_nil]
  · intro u hu
    rw [hs1] at hu
    simp only [ProcessManager.swapTrace, List.mem_cons, List.mem_singleton,
      List.not_mem_nil, or_false] at hu
    rcases hu with h | h | h
    · rw [h]; rfl
    · rw [h]; rfl
    · rw [h]
      have := (swapRunTask_fields
        { runningService := some A, runningTask := some ⟨t1, A.runExc⟩,
          closeLog := [], awaitLog := [] } (some B) (some ⟨t2, B.runExc⟩)).1
      simp [ProcessManager.get, this]
  · rw [hsW]
    show (ProcessManager.swapRunTask _ none none).1.runningService = none
    exact (swapRunTask_fields _ _ _).1
  · rw [hsW]
    show (ProcessManager.swapRunTask _ none none).1.closeLog.count W.id = 1
    simp only [ProcessManager.swapRunTask]
    rcases W.closeExc with _ | e <;> simp [List.count_cons, List.count_nil]

/-- Witness for C2 at concrete workers: after swapping worker 1 for
worker 2, `get()` returns worker 2, and the pre-lock state of the second
swap already observes a non-null worker. -/
theorem c2_witness :
    ProcessManager.get
        (ProcessManager.update
          (ProcessManager.update ProcessManager.initState
            (some { id := 1, closeExc := none, runExc := none }) 10).1
          (some { id := 2, closeExc := none, runExc := none }) 11).1
      = some { id := 2, closeExc := none, runExc := none } ∧
    (ProcessManager.get
        (ProcessManager.update ProcessManager.initState
          (some { id := 1, closeExc := none, runExc := none }) 10).1).isSome := by
  have h := c2_update_scenarios
    { id := 1, closeExc := none, runExc := none }
    { id := 2, closeExc := none, runExc := none }
    { id := 3, closeExc := none, runExc := none } 10 11 12
  exact ⟨h.1.1, h.1.2.2 _ (by decide)⟩

/-- C3 counterexample: a worker whose `close()` raises exception code 7.
Tearing it down via `update(None)` propagates that exception to the
caller of `update`, so teardown exceptions are not all swallowed. -/
theorem c3_counterexample :
    (ProcessManager.update
        (ProcessManager.update ProcessManager.initState
          (some { id := 1, closeExc := some 7, runExc := none }) 0).1
        none 0).2 = some 7 := rfl

/-- C3 (amended): a swap (`update` or `store`) always makes the new worker
visible, whatever the outgoing teardown does; an exception raised while
awaiting the outgoing background task is swallowed (no exception reaches
the caller whenever the old worker's `close()` returns normally,
regardless of the old task's await behaviour); only an exception raised by
the old worker's `close()` call propagates to the caller. -/
theorem c3_teardown_exceptions (s : PMState) (w : Option Worker)
    (taskId : Nat) (wst : Worker) (tst : WTask) :
    ((ProcessManager.update s w taskId).1.runningService = w ∧
      (∀ oldW, s.runningService = some oldW → oldW.closeExc = none →
        (ProcessManager.update s w taskId).2 = none) ∧
      (∀ oldW oldT e, s.runningService = some oldW → s.runningTask = some oldT →
        oldW.closeExc = some e → (ProcessManager.update s w taskId).2 = some e)) ∧
    ((ProcessManager.store s wst tst).1.runningService = some wst ∧
      (∀ oldW, s.runningService = some oldW → oldW.closeExc = none →
        (ProcessManager.store s wst tst).2 = none) ∧
      (∀ oldW oldT e, s.runningService = some oldW → s.runningTask = some oldT →
        oldW.closeExc = some e → (ProcessManager.store s wst tst).2 = some e)) := by
  have hexc : ∀ (w2 : Option Worker) (t2 : Option WTask),
      (∀ oldW, s.runningService = some oldW → oldW.closeExc = none →
        (ProcessManager.swapRunTask s w2 t2).2 = none) ∧
      (∀ oldW oldT e, s.runningService = some oldW → s.runningTask = some oldT →
        oldW.closeExc = some e → (ProcessManager.swapRunTask s w2 t2).2 = some e) := by
    intro w2 t2
    obtain ⟨rs, rt, cl, al⟩ := s
    constructor
    · intro oldW hrs hcl
      cases hrs
      rcases rt with _ | oldT
      · rfl
      · simp only [ProcessManager.swapRunTask, hcl]
    · intro oldW oldT e hrs hrt hcl
      cases hrs
      cases hrt
      simp only [ProcessManager.swapRunTask, hcl]
  constructor
  · rcases w with _ | sv
    · exact ⟨update_fields s none taskId, (hexc none none).1, (hexc none none).2⟩
    · exact ⟨update_fields s (some sv) taskId,
        (hexc (some sv) (some ⟨taskId, sv.runExc⟩)).1,
        (hexc (some sv) (some ⟨taskId, sv.runExc⟩)).2⟩
  · exact ⟨(swapRunTask_fields s (some wst) (some tst)).1,
      (hexc (some wst) (some tst)).1, (hexc (some wst) (some tst)).2⟩

/-- Witness for C3 (amended): from a state holding a worker whose
`close()` returns normally but whose background task raises 9 on await,
swapping in a new worker propagates nothing to the caller, and the new
worker is visible. -/
theorem c3_witness :
    ((ProcessManager.update
        { runningService := some { id := 1, closeExc := none, runExc := none },
          runningTask := some { id := 5, awaitExc := some 9 },
          closeLog := [], awaitLog := [] }
        (some { id := 2, closeExc := none, runExc := none }) 6).2 = none) ∧
    ((ProcessManager.update
        { runningService := some { id := 1, closeExc := none, runExc := none },
          runningTask := some { id := 5, awaitExc := some 9 },
          closeLog := [], awaitLog := [] }
        (some { id := 2, closeExc := none, runExc := none }) 6).1.runningService
      = some { id := 2, closeExc := none, runExc := none }) := by
  have h := c3_teardown_exceptions
    { runningService := some { id := 1, closeExc := none, runExc := none },
      runningTask := some { id := 5, awaitExc := some 9 },
      closeLog := [], awaitLog := [] }
    (some { id := 2, closeExc := none, runExc := none }) 6
    { id := 3, closeExc := none, runExc := none } { id := 7, awaitExc := none }
  exact ⟨h.1.2.1 { id := 1, closeExc := none, runExc := none } rfl rfl, h.1.1⟩

/-! ## Claims C5 and C6 — ServiceController -/

/-- C5: when a tag already has a registered handler, a second
`add_handler` for that tag fails with the handler-exists error, leaves the
registry unchanged, and the first handler is still the one every
subsequent `call` for that tag invokes. -/
theorem c5_duplicate_service_handler (reg : ServiceRegistry) (t h1 h2 : Nat)
    (sb : ServiceBehavior) (p : Nat)
    (hfirst : ServiceController.lookupService reg t = some h1) :
    (ServiceController.addHandler reg t h2).2
        = some (CallErr.serviceHandlerExists t) ∧
    (ServiceController.addHandler reg t h2).1 = reg ∧
    (ServiceController.call (ServiceController.addHandler reg t h2).1
        sb ⟨t, p⟩).1 = [(h1, p)] := by
  rcases hfind : reg.find? (fun pr => pr.1 == t) with _ | pr
  · rw [ServiceController.lookupService, hfind] at hfirst
    simp at hfirst
  · have hmem := List.mem_of_find?_eq_some hfind
    have hp := List.find?_some hfind
    have hany : reg.any (fun pr => pr.1 == t) = true :=
      List.any_eq_true.mpr ⟨pr, hmem, hp⟩
    have haddEq : ServiceController.addHandler reg t h2
        = (reg, some (CallErr.serviceHandlerExists t)) := by
      rw [ServiceController.addHandler, if_pos hany]
    refine ⟨by rw [haddEq], by rw [haddEq], ?_⟩
    rw [haddEq]
    show (ServiceController.call reg sb ⟨t, p⟩).1 = [(h1, p)]
    unfold ServiceController.call
    rw [show ServiceController.lookupService reg (ServiceReq.mk t p).tag = some h1
      from hfirst]

/-- Witness for C5: registry `[(0, 1)]`, a second handler `2` for tag
`0`. -/
theorem c5_witness :
    (ServiceController.addHandler [(0, 1)] 0 2).2
        = some (CallErr.serviceHandlerExists 0) ∧
    (ServiceController.addHandler [(0, 1)] 0 2).1 = [(0, 1)] ∧
    (ServiceController.call (ServiceController.addHandler [(0, 1)] 0 2).1
        (fun h p => Except.ok (h + p)) ⟨0, 3⟩).1 = [(1, 3)] :=
  c5_duplicate_service_handler [(0, 1)] 0 1 2 (fun h p => Except.ok (h + p)) 3 rfl

/-- C6: `call` on a request whose tag has no handler fails with the
not-handled error and invokes nothing; with a registered handler it
invokes exactly that handler on the request's payload, returns the
handler's result, and propagates the handler's exception unchanged. -/
theorem c6_service_call (reg : ServiceRegistry) (sb : ServiceBehavior)
    (req : ServiceReq) :
    (ServiceController.lookupService reg req.tag = none →
      ServiceController.call reg sb req
        = ([], Except.error (CallErr.serviceNotHandled req.tag))) ∧
    (∀ h, ServiceController.lookupService reg req.tag = some h →
      (ServiceController.call reg sb req).1 = [(h, req.payload)] ∧
      (∀ r, sb h req.payload = Except.ok r →
        (ServiceController.call reg sb req).2 = Except.ok r) ∧
      (∀ e, sb h req.payload = Except.error e →
        (ServiceController.call reg sb req).2
          = Except.error (CallErr.fromHandler e))) := by
  constructor
  · intro hnone
    unfold ServiceController.call
    rw [hnone]
  · intro h hsome
    have hcall : ServiceController.call reg sb req
        = ([(h, req.payload)],
            match sb h req.payload with
            | .error e => .error (.fromHandler e)
            | .ok r => .ok r) := by
      unfold ServiceController.call
      rw [hsome]
    refine ⟨by rw [hcall], ?_, ?_⟩
    · intro r hr
      rw [hcall]
      simp [hr]
    · intro e he
      rw [hcall]
      simp [he]

/-- Witness for C6: empty registry rejects tag 0; registry `[(1, 4)]`
routes tag 1 to handler 4. -/
theorem c6_witness :
    ServiceController.call [] (fun h p => Except.ok (h + p)) ⟨0, 3⟩
        = ([], Except.error (CallErr.serviceNotHandled 0)) ∧
    (ServiceController.call [(1, 4)] (fun h p => Except.ok (h + p)) ⟨1, 3⟩).1
        = [(4, 3)] ∧
    (ServiceController.call [(1, 4)] (fun h p => Except.ok (h + p)) ⟨1, 3⟩).2
        = Except.ok 7 := by
  refine ⟨(c6_service_call [] (fun h p => Except.ok (h + p)) ⟨0, 3⟩).1 rfl, ?_, ?_⟩
  · exact ((c6_service_call [(1, 4)] (fun h p => Except.ok (h + p)) ⟨1, 3⟩).2 4 rfl).1
  · exact ((c6_service_call [(1, 4)] (fun h p => Except.ok (h + p)) ⟨1, 3⟩).2 4
      rfl).2.1 7 rfl

/-! ## Claims C8 and C1 — EventController run loop -/

/-- C8: dequeuing an event whose tag has no registered handlers raises
nothing and invokes no handler, and the loop processes the remaining
queued events exactly as if the event had not been there. -/
theorem c8_unhandled_event_tag (reg : EventRegistry) (hb : HandlerBehavior)
    (e : Event) (rest : List Event)
    (hnone : EventController.lookupTag reg e.tag = none) :
    EventController.dispatchEvent reg hb e = ([], none) ∧
    EventController.runLoop reg hb (e :: rest)
      = EventController.runLoop reg hb rest := by
  have hd : EventController.dispatchEvent reg hb e = ([], none) := by
    unfold EventController.dispatchEvent
    rw [hnone]
  refine ⟨hd, ?_⟩
  simp only [EventController.runLoop, hd]
  simp

/-- Witness for C8: empty registry, one unhandled event followed by
another event. -/
theorem c8_witness :
    EventController.dispatchEvent [] (fun _ _ => none) ⟨0, 0⟩ = ([], none) ∧
    EventController.runLoop [] (fun _ _ => none) [⟨0, 0⟩, ⟨1, 1⟩]
      = EventController.runLoop [] (fun _ _ => none) [⟨1, 1⟩] :=
  c8_unhandled_event_tag [] (fun _ _ => none) ⟨0, 0⟩ [⟨1, 1⟩] rfl

theorem publishAll_eq (es : List Event) (q : List Event) :
    EventController.publishAll q es = q ++ es := by
  induction es generalizing q with
  | nil => simp [EventController.publishAll]
  | cons e rest ih =>
    show EventController.publishAll (q ++ [e]) rest = q ++ e :: rest
    rw [ih (q ++ [e])]
    simp

theorem dispatch_err_none (reg : EventRegistry) (hb : HandlerBehavior)
    (e : Event) (hnr : ∀ g ev, hb g ev = none) :
    (EventController.dispatchEvent reg hb e).2 = none := by
  unfold EventController.dispatchEvent
  rcases hfind : EventController.lookupTag reg e.tag with _ | hs
  · rfl
  · simp [hnr]

theorem runLoop_cons_of_err_none (reg : EventRegistry) (hb : HandlerBehavior)
    (e : Event) (rest : List Event)
    (herr : (EventController.dispatchEvent reg hb e).2 = none) :
    EventController.runLoop reg hb (e :: rest)
      = ((EventController.dispatchEvent reg hb e).1
          ++ (EventController.runLoop reg hb rest).1,
        (EventController.runLoop reg hb rest).2) := by
  simp only [EventController.runLoop, herr]

theorem invocationsOf_append (h : Nat) (tr1 tr2 : List (Nat × Event)) :
    EventController.invocationsOf h (tr1 ++ tr2)
      = EventController.invocationsOf h tr1
        ++ EventController.invocationsOf h tr2 := by
  simp [EventController.invocationsOf]

theorem invocationsOf_map (h : Nat) (hs : List Nat) (e : Event) :
    EventController.invocationsOf h (hs.map (fun g => (g, e)))
      = List.replicate (hs.count h) e := by
  induction hs with
  | nil => rfl
  | cons g rest ih =>
    simp only [List.map_cons, EventController.invocationsOf, List.filter_cons,
      List.count_cons] at *
    by_cases hgh : (g == h) = true
    · simp only [hgh, if_true, List.map_cons, ih, List.replicate_succ]
    · simp [hgh]
      exact ih

/-- C1: for every published sequence of events, a handler registered
(once) for tag `T` and for no other tag is invoked exactly on the
subsequence of events whose tag is `T`, in publish order, provided no
handler raises (a raising handler aborts the loop, §4.1). -/
theorem c1_eventbus_delivery (reg : EventRegistry) (hb : HandlerBehavior)
    (events : List Event) (T h : Nat)
    (hcount : ((EventController.lookupTag reg T).getD []).count h = 1)
    (honly : ∀ t, t ≠ T → h ∉ (EventController.lookupTag reg t).getD [])
    (hnoraise : ∀ g ev, hb g ev = none) :
    EventController.invocationsOf h
        (EventController.runLoop reg hb
          (EventController.publishAll [] events)).1
      = events.filter (fun ev => ev.tag == T) := by
  rw [publishAll_eq, List.nil_append]
  induction events with
  | nil => rfl
  | cons e rest ih =>
    have herr := dispatch_err_none reg hb e hnoraise
    rw [runLoop_cons_of_err_none reg hb e rest herr]
    simp only [invocationsOf_append, ih, List.filter_cons]
    by_cases htag : e.tag = T
    · rcases hlk : EventController.lookupTag reg T with _ | hs
      · rw [hlk] at hcount
        simp at hcount
      · have hcnt : hs.count h = 1 := by
          rw [hlk] at hcount
          simpa using hcount
        have hdisp : (EventController.dispatchEvent reg hb e).1
            = hs.map (fun g => (g, e)) := by
          unfold EventController.dispatchEvent
          rw [htag, hlk]
        rw [hdisp, invocationsOf_map, hcnt]
        simp [htag]
    · have hnotmem : h ∉ (EventController.lookupTag reg e.tag).getD [] :=
        honly e.tag htag
      rcases hlk : EventController.lookupTag reg e.tag with _ | hs
      · have hdisp : (EventController.dispatchEvent reg hb e).1 = [] := by
          unfold EventController.dispatchEvent
          rw [hlk]
        rw [hdisp]
        simp [htag, EventController.invocationsOf]
      · have hmem : h ∉ hs := by
          rw [hlk] at hnotmem
          simpa using hnotmem
        have hcnt : hs.count h = 0 := List.count_eq_zero.mpr hmem
        have hdisp : (EventController.dispatchEvent reg hb e).1
            = hs.map (fun g => (g, e)) := by
          unfold EventController.dispatchEvent
          rw [hlk]
        rw [hdisp, invocationsOf_map, hcnt]
        simp [htag]

/-- Witness for C1: handler 1 registered for tag 0 only; three events of
tags 0, 1, 0 yield exactly the two tag-0 events, in order. -/
theorem c1_witness :
    EventController.invocationsOf 1
        (EventController.runLoop [(0, [1])] (fun _ _ => none)
          (EventController.publishAll [] [⟨0, 5⟩, ⟨1, 6⟩, ⟨0, 7⟩])).1
      = List.filter (fun ev => ev.tag == 0) [⟨0, 5⟩, ⟨1, 6⟩, ⟨0, 7⟩] := by
  apply c1_eventbus_delivery
  · rfl
  · intro t ht
    simp only [EventController.lookupTag, List.find?]
    have : ((0 : Nat) == t) = false := by
      simpa using fun hc => ht hc.symm
    rw [this]
    simp
  · intro g ev
    rfl

end HatenaToyBox
